import Mathlib

/-!
Shallow embedding of the go-cache repository: the in-process memory store
(src/memory), the redis-backed store (src/redis) and the cleaner, together
with theorems settling the specification claims.

Conventions: Go time.Time and time.Duration are modelled as Int nanosecond
counts, and time.Since(t) evaluated at instant now is now - t.  Byte slices
are List Nat.  A Go error value is Option String, none standing for nil.
Go maps are modelled as functions String to Option of the entry type.
-/

namespace GoCache

/-- A cached value of the in-process store, src/memory/memory.go
MemCacheValue: the save instant and the payload bytes.  The Go zero value
of the struct is modelled as saved 0, payload empty. -/
structure MemCacheValue where
  saved : Int
  value : List Nat
deriving DecidableEq

/-- The in-process store, src/memory/memory.go MemCache: the configured
window and the key to value mapping.  The mutex only serializes access and
is irrelevant to the sequential semantics embedded here. -/
structure MemCache where
  window : Int
  cache : String → Option MemCacheValue

/-- src/memory/methods.go IsWarm: val, ok from the map (val the zero value
when absent); age is (Since(saved) - window) * (-1); result ok and age > 0. -/
def MemCache.IsWarm (c : MemCache) (now : Int) (key : String) : Bool :=
  let val := (c.cache key).getD { saved := 0, value := [] }
  let ok := (c.cache key).isSome
  let age := (now - val.saved - c.window) * (-1)
  ok && decide (age > 0)

/-- src/memory/methods.go Put: rebuild the mapping keeping every entry
whose key differs from the target, insert the new entry saved now, swap the
mapping in, and return a nil error. -/
def MemCache.Put (c : MemCache) (now : Int) (key : String) (value : List Nat) :
    MemCache × Option String :=
  ({ c with cache := fun k =>
      if k = key then some { saved := now, value := value } else c.cache k },
   none)

/-- src/memory/methods.go Get: an absent key yields the error string;
otherwise the stored payload is returned, with no staleness check. -/
def MemCache.Get (c : MemCache) (key : String) : Except String (List Nat) :=
  match c.cache key with
  | none => .error "unable to retrieve value from cache"
  | some cache => .ok cache.value

/-- src/memory/methods.go Delete: an absent key yields the error string;
otherwise the entry is overwritten with the zero MemCacheValue; the key is
not removed from the mapping. -/
def MemCache.Delete (c : MemCache) (key : String) : MemCache × Option String :=
  match c.cache key with
  | none => (c, some "unable to retrieve value from cache")
  | some _ =>
    ({ c with cache := fun k =>
        if k = key then some { saved := 0, value := [] } else c.cache k },
     none)

/-- src/memory/methods.go Flush: replace the mapping with an empty one and
return a nil error. -/
def MemCache.Flush (c : MemCache) : MemCache × Option String :=
  ({ c with cache := fun _ => none }, none)

/-- src/memory/methods.go FlushStale: for every entry, age is
(Since(saved) - window) * (-1); the entry is deleted iff age < 0; the
returned error is nil. -/
def MemCache.FlushStale (c : MemCache) (now : Int) : MemCache × Option String :=
  ({ c with cache := fun k =>
      match c.cache k with
      | some v => if (now - v.saved - c.window) * (-1) < 0 then none else some v
      | none => none },
   none)

/-- src/memory/methods.go cleaner: the tick interval.  The stop channel is
modelled by the stop event of the step function below. -/
structure Cleaner where
  Interval : Int

/-- src/memory/methods.go initCleaner: the interval is the cache window. -/
def MemCache.initCleaner (c : MemCache) : Cleaner :=
  { Interval := c.window }

/-- An event the cleanup select loop can receive: a ticker tick, or the
stop signal sent by stopCleaner. -/
inductive CleanerEvent where
  | tick
  | stop

/-- State of the running cleanup goroutine: whether the loop is still
running (the ticker alive) and the store it sweeps. -/
structure CleanerRun where
  running : Bool
  cache : MemCache

/-- src/memory/methods.go cleanup, one iteration of the select loop: a tick
invokes FlushStale on the owning store and discards its error value; the
stop signal stops the ticker and returns from the loop. -/
def cleanerStep (now : Int) (s : CleanerRun) (ev : CleanerEvent) : CleanerRun :=
  match ev with
  | .tick => { s with cache := (s.cache.FlushStale now).1 }
  | .stop => { s with running := false }

/-- An error value of the go-redis client: redis.Nil, the reply meaning
the key is missing, or any other error such as a transport failure. -/
inductive RedisErr where
  | nil
  | other (msg : String)
deriving DecidableEq

/-- The remote store, src/unnamed/part_000 RedisCache: the configured
window, and the backend reply oracles standing for the client connection:
the reply to EXISTS per key, the reply to TTL per key, the error of DEL per
key, and the key enumeration produced by SCAN. -/
structure RedisCache where
  window : Int
  existsResp : String → Except RedisErr Int
  ttlResp : String → Except RedisErr Int
  delResp : String → Option RedisErr
  scanKeys : List String

/-- The reply an honest backend gives to EXISTS key over a store: the count
of existing keys, with a nil error; EXISTS never replies redis.Nil. -/
def redisExists (store : String → Option (List Nat)) (key : String) :
    Except RedisErr Int :=
  .ok (if (store key).isSome then 1 else 0)

/-- src/redis/methods.go IsWarm: the value of Exists is discarded and the
result is the comparison err not equal to redis.Nil. -/
def RedisCache.IsWarm (c : RedisCache) (key : String) : Bool :=
  match c.existsResp key with
  | .ok _ => true
  | .error e => decide (e ≠ RedisErr.nil)

/-- The loop body of src/redis/methods.go FlushStale: walk the scanned
keys; query TTL for each and return its error if any; when the reply is the
no-expiry sentinel -1, issue DEL, returning its error if any, and record
the key as deleted; other replies leave the key untouched. -/
def redisFlushStaleLoop (c : RedisCache) :
    List String → List String → List String × Option RedisErr
  | [], deleted => (deleted, none)
  | k :: rest, deleted =>
    match c.ttlResp k with
    | .error e => (deleted, some e)
    | .ok d =>
      if d = -1 then
        match c.delResp k with
        | some e => (deleted, some e)
        | none => redisFlushStaleLoop c rest (deleted ++ [k])
      else redisFlushStaleLoop c rest deleted

/-- src/redis/methods.go FlushStale: enumerate the whole keyspace via SCAN
and run the TTL and DEL loop over it; the configured window is never
consulted.  Returns the keys deleted and the error returned to the caller. -/
def RedisCache.FlushStale (c : RedisCache) : List String × Option RedisErr :=
  redisFlushStaleLoop c c.scanKeys []

/-- A remote store whose backend holds no keys and answers every request
with a nil error. -/
def redisEmpty : RedisCache :=
  { window := 60,
    existsResp := redisExists (fun _ => none),
    ttlResp := fun _ => .ok (-2),
    delResp := fun _ => none,
    scanKeys := [] }

/-- A remote store whose backend connection fails every request with a
transport error. -/
def redisDown : RedisCache :=
  { window := 60,
    existsResp := fun _ => .error (.other "connection refused"),
    ttlResp := fun _ => .error (.other "connection refused"),
    delResp := fun _ => some (.other "connection refused"),
    scanKeys := [] }

/-- A remote store whose backend enumerates the keys old and fresh, where
old has no expiry set and fresh has a positive remaining ttl. -/
def redisC6 : RedisCache :=
  { window := 60,
    existsResp := fun _ => .ok 1,
    ttlResp := fun x => if x = "old" then .ok (-1) else .ok 30,
    delResp := fun _ => none,
    scanKeys := ["old", "fresh"] }

/-! Concrete in-process stores used as inputs for the defect evidence. -/

/-- A store with window 60 holding one entry under key a, saved at 0. -/
def memC1 : MemCache :=
  { window := 60,
    cache := fun k => if k = "a" then some { saved := 0, value := [7, 7] } else none }

/-- A store with window 60 holding one entry under key b, saved at 0. -/
def memC2 : MemCache :=
  { window := 60,
    cache := fun k => if k = "b" then some { saved := 0, value := [1] } else none }

/-- A store with window 60 holding one entry under key c, saved at 5. -/
def memC3 : MemCache :=
  { window := 60,
    cache := fun k => if k = "c" then some { saved := 5, value := [3, 4] } else none }

/-- A store with window 100 holding one entry under key d, saved at 50. -/
def memC4 : MemCache :=
  { window := 100,
    cache := fun k => if k = "d" then some { saved := 50, value := [9] } else none }

/-- A store with window 60 holding one entry under key x, saved at 5. -/
def memC8 : MemCache :=
  { window := 60,
    cache := fun k => if k = "x" then some { saved := 5, value := [1] } else none }

/-! Theorems for the claims about the in-process store. -/

/-- Claim C1 (code defect evidence): at instant 200 the entry under key a of
memC1 is stale by the store's own warmth predicate, yet Get succeeds and
hands the caller the expired payload instead of failing NotFound. -/
theorem mem_get_returns_stale_payload :
    memC1.IsWarm 200 "a" = false ∧ memC1.Get "a" = .ok [7, 7] := by
  constructor <;> rfl

/-- Claim C2 (code defect evidence): at instant 60 the age of the entry
under key b of memC2 equals the window exactly; IsWarm reports it stale,
yet FlushStale evaluated at the same instant keeps it, so the two
operations disagree at the boundary. -/
theorem mem_iswarm_flushstale_disagree :
    memC2.IsWarm 60 "b" = false ∧
    ((memC2.FlushStale 60).1).cache "b" = some { saved := 0, value := [1] } := by
  constructor <;> rfl

/-- Claim C3 (code defect evidence): Delete on the present key c of memC3
succeeds, but the entry is not removed: the subsequent Get succeeds and
returns the zero payload, and a second Delete also succeeds, where the
claim requires both to fail NotFound. -/
theorem mem_delete_leaves_entry :
    (memC3.Delete "c").2 = none ∧
    ((memC3.Delete "c").1).Get "c" = .ok [] ∧
    (((memC3.Delete "c").1).Delete "c").2 = none := by
  refine ⟨rfl, rfl, rfl⟩

/-- Claim C4 (code defect evidence): at instant 150 the age of the entry
under key d of memC4 is exactly the window, so the claim requires
FlushStale to remove it, yet the code keeps it: it removes only entries
strictly older than the window. -/
theorem mem_flushstale_keeps_boundary_entry :
    (150 : Int) - 50 ≥ memC4.window ∧
    ((memC4.FlushStale 150).1).cache "d" = some { saved := 50, value := [9] } := by
  constructor
  · decide
  · rfl

/-- Claim C7: Put of payload v under key k immediately followed by Get of k
succeeds and returns v unchanged, for every store, instant, key and
payload (the code never consults the clock in Get, so in particular this
holds before the window elapses). -/
theorem mem_put_get_roundtrip (c : MemCache) (now : Int) (k : String) (v : List Nat) :
    ((c.Put now k v).1).Get k = .ok v := by
  simp [MemCache.Put, MemCache.Get]

/-- Claim C8: Put modifies only the entry of its target key; every other
key maps to exactly the entry it had before the call. -/
theorem mem_put_frame (c : MemCache) (now : Int) (k : String) (v : List Nat)
    (k' : String) (h : k' ≠ k) :
    ((c.Put now k v).1).cache k' = c.cache k' := by
  simp [MemCache.Put, h]

/-- Witness for claim C8 at a concrete store: putting under key y leaves
the pre-existing entry under key x untouched. -/
theorem mem_put_frame_witness :
    "x" ≠ "y" ∧
    ((memC8.Put 10 "y" [2]).1).cache "x" = some { saved := 5, value := [1] } :=
  ⟨by decide, (mem_put_frame memC8 10 "y" [2] "x" (by decide)).trans rfl⟩

/-- Claim C9: the cleaner is constructed with its interval equal to the
cache window; a tick of the loop applies FlushStale to the owning store,
its error discarded (the step returns no error and keeps running), and the
stop signal stops the loop. -/
theorem cleaner_interval_tick_stop (c : MemCache) (now : Int) (s : CleanerRun) :
    (c.initCleaner).Interval = c.window ∧
    (cleanerStep now s .tick).cache = (s.cache.FlushStale now).1 ∧
    (cleanerStep now s .tick).running = s.running ∧
    (cleanerStep now s .stop).running = false :=
  ⟨rfl, rfl, rfl, rfl⟩

/-- Claim C10: Put, Flush and FlushStale of the in-process store return a
nil error on every store, instant, key and payload. -/
theorem mem_put_flush_flushstale_nil_error (c : MemCache) (now : Int)
    (k : String) (v : List Nat) :
    (c.Put now k v).2 = none ∧ (c.Flush).2 = none ∧ (c.FlushStale now).2 = none :=
  ⟨rfl, rfl, rfl⟩

/-! Theorems for the claims about the remote store. -/

/-- Claim C5 (code defect evidence): the backend of redisEmpty holds no key
k, EXISTS replies count 0 with a nil error, yet IsWarm returns true; and
when determining existence fails with a transport error, IsWarm also
returns true.  The claim requires false in both cases. -/
theorem redis_iswarm_true_on_absent_and_error :
    redisExists (fun _ => none) "k" = .ok 0 ∧
    redisEmpty.IsWarm "k" = true ∧
    redisDown.IsWarm "k" = true := by
  refine ⟨rfl, rfl, rfl⟩

/-- Membership in the deletions of the FlushStale loop: when TTL and DEL
never fail on the walked keys, the loop returns a nil error and deletes the
accumulator plus exactly the walked keys whose TTL reply is the no-expiry
sentinel. -/
theorem redisFlushStaleLoop_mem (c : RedisCache) (k : String) :
    ∀ (keys acc : List String),
      (∀ x ∈ keys, (c.ttlResp x).isOk = true) →
      (∀ x ∈ keys, c.delResp x = none) →
      (redisFlushStaleLoop c keys acc).2 = none ∧
      (k ∈ (redisFlushStaleLoop c keys acc).1 ↔
        k ∈ acc ∨ (k ∈ keys ∧ c.ttlResp k = .ok (-1))) := by
  intro keys
  induction keys with
  | nil => intro acc _ _; simp [redisFlushStaleLoop]
  | cons hd tl ih =>
    intro acc h1 h2
    have hhd : (c.ttlResp hd).isOk = true := h1 hd (List.mem_cons_self hd tl)
    obtain ⟨d, hd_eq⟩ : ∃ d, c.ttlResp hd = .ok d := by
      cases hval : c.ttlResp hd with
      | ok d => exact ⟨d, rfl⟩
      | error e => rw [hval] at hhd; simp [Except.isOk, Except.toBool] at hhd
    have hdel : c.delResp hd = none := h2 hd (List.mem_cons_self hd tl)
    have h1' : ∀ x ∈ tl, (c.ttlResp x).isOk = true :=
      fun x hx => h1 x (List.mem_cons_of_mem hd hx)
    have h2' : ∀ x ∈ tl, c.delResp x = none :=
      fun x hx => h2 x (List.mem_cons_of_mem hd hx)
    by_cases hneg : d = -1
    · subst hneg
      have := ih (acc ++ [hd]) h1' h2'
      rw [show redisFlushStaleLoop c (hd :: tl) acc
            = redisFlushStaleLoop c tl (acc ++ [hd]) by
          simp [redisFlushStaleLoop, hd_eq, hdel]]
      refine ⟨this.1, ?_⟩
      rw [this.2]
      constructor
      · rintro (hmem | ⟨htl, httl⟩)
        · rcases List.mem_append.mp hmem with hacc | hone
          · exact Or.inl hacc
          · have : k = hd := by simpa using hone
            exact Or.inr ⟨by simp [this], by rw [this, hd_eq]⟩
        · exact Or.inr ⟨List.mem_cons_of_mem hd htl, httl⟩
      · rintro (hacc | ⟨hmem, httl⟩)
        · exact Or.inl (List.mem_append.mpr (Or.inl hacc))
        · rcases List.mem_cons.mp hmem with heq | htl
          · exact Or.inl (List.mem_append.mpr (Or.inr (by simp [heq])))
          · exact Or.inr ⟨htl, httl⟩
    · have := ih acc h1' h2'
      rw [show redisFlushStaleLoop c (hd :: tl) acc
            = redisFlushStaleLoop c tl acc by
          simp [redisFlushStaleLoop, hd_eq, hneg]]
      refine ⟨this.1, ?_⟩
      rw [this.2]
      constructor
      · rintro (hacc | ⟨htl, httl⟩)
        · exact Or.inl hacc
        · exact Or.inr ⟨List.mem_cons_of_mem hd htl, httl⟩
      · rintro (hacc | ⟨hmem, httl⟩)
        · exact Or.inl hacc
        · rcases List.mem_cons.mp hmem with heq | htl
          · exfalso
            rw [heq, hd_eq] at httl
            exact hneg (by injection httl)
          · exact Or.inr ⟨htl, httl⟩

/-- Claim C6: when the backend answers every TTL and DEL of the scanned
keyspace without error, FlushStale of the remote store returns a nil error
and deletes a key iff it was scanned and its TTL reply is the no-expiry
sentinel -1; keys with a positive remaining ttl are untouched, and the
definition of FlushStale never consults the configured window. -/
theorem redis_flushStale_deletes_iff_no_expiry (c : RedisCache) (k : String)
    (h1 : ∀ x ∈ c.scanKeys, (c.ttlResp x).isOk = true)
    (h2 : ∀ x ∈ c.scanKeys, c.delResp x = none) :
    (c.FlushStale).2 = none ∧
    (k ∈ (c.FlushStale).1 ↔ (k ∈ c.scanKeys ∧ c.ttlResp k = .ok (-1))) := by
  have h := redisFlushStaleLoop_mem c k c.scanKeys [] h1 h2
  simpa [RedisCache.FlushStale] using h

/-- Witness for claim C6 at the concrete store redisC6: the sweep succeeds
and the key old, whose TTL reply is the no-expiry sentinel, is deleted. -/
theorem redis_flushStale_deletes_iff_no_expiry_witness :
    (redisC6.FlushStale).2 = none ∧
    ("old" ∈ (redisC6.FlushStale).1 ↔
      ("old" ∈ redisC6.scanKeys ∧ redisC6.ttlResp "old" = .ok (-1))) :=
  redis_flushStale_deletes_iff_no_expiry redisC6 "old" (by decide) (by decide)

end GoCache
